import Mathlib

/-!
Shallow embedding of `sass_processor/management/commands/compilescss.py`
(django-sass-processor's `compilescss` management command).

The command walks the configured template directories, parses each template,
collects `sass_src` tag nodes (`SassSrcNode`) from the parse tree, and either
compiles the referenced SASS/SCSS sources to sibling `.css` files or deletes
previously generated `.css` files.

External collaborators (the Django template machinery, the storage resolver
`find_file` and the `sass.compile` binding) are modelled as parameters; the
filesystem is modelled as a partial map from paths to file contents plus an
explicit event trace, so that frame properties about writes, removals and
compiler invocations can be stated.
-/

namespace Compilescss

/-! ### `os.path` helpers used by `compile` and `delete_file` -/

/-- Index of the last occurrence of `c` in `l`, or `none` (Python's `str.rfind`,
with `none` standing for `-1`). -/
def rfindIdx (l : List Char) (c : Char) : Option Nat :=
  (List.range l.length).foldl (fun acc i => if l.get? i = some c then some i else acc) none

/-- The root part of `posixpath.splitext p`: everything before the final
extension.  Mirrors CPython's `genericpath._splitext`: the split happens at the
last dot that comes after the last path separator, provided at least one
non-dot character of the basename precedes it (so `.bashrc` has no extension). -/
def splitextRoot (p : String) : String :=
  let l := p.toList
  let sep : Int := match rfindIdx l '/' with | some i => (i : Int) | none => -1
  let dot : Int := match rfindIdx l '.' with | some i => (i : Int) | none => -1
  if dot > sep then
    if (List.range' (sep + 1).toNat (dot - sep - 1).toNat).any
        (fun i => l.get? i ≠ some '.') then
      String.mk (l.take dot.toNat)
    else p
  else p

/-- Python `str.endswith` over the character lists (kernel-reducible counterpart of
`String.endsWith`). -/
def endsWithStr (s suffix : String) : Bool :=
  suffix.toList.isSuffixOf s.toList

/-- Python `str.startswith` over the character lists (kernel-reducible counterpart
of `String.startsWith`). -/
def startsWithStr (s pre : String) : Bool :=
  pre.toList.isPrefixOf s.toList

/-- Embeds `posixpath.join root name` for the case used in `find_templates`
(`os.path.join(root, name)` with `name` a plain file name produced by
`os.walk`, never absolute). -/
def pathJoin (root name : String) : String :=
  if root = "" then name
  else if endsWithStr root "/" then root ++ name
  else root ++ "/" ++ name

/-! ### Template node trees and the walker -/

/-- One discovered `sass_src` tag occurrence, as consumed by `compile` /
`delete_file` (`node.path`, `node.include_paths`).  This is the spec's
`TemplateReference`. -/
structure SassRef where
  path : String
  include_paths : List String
deriving DecidableEq, Repr

/-- A template parse-tree node, as seen by `walk_nodes`.

Modelled from the spec: `SassSrcNode` (defined in
`sass_processor/templatetags/sass_tags.py`, which is not part of the sources
under verification) is "one discovered tag instance inside a parsed template"
carrying `path`, `include_paths` and the `is_sass` flag; being a tag node it
has no child node lists.  Every other node is opaque to the walker except for
the child node list the parser resolves for it (`parser.get_nodelist`), which
may already splice in nodes of extended/included sub-templates. -/
inductive TNode where
  | sassSrc (path : String) (include_paths : List String) (is_sass : Bool)
  | elem (children : List TNode)

/-- Embeds `parser.get_nodelist(node, original)`: the child node list the parser
resolves for a node.  A `sass_src` tag node has no children. -/
def getNodelist : TNode → List TNode
  | .sassSrc _ _ _ => []
  | .elem cs => cs

/-- The loop body of `Command.walk_nodes` over a resolved node list:
a `SassSrcNode` child is yielded iff `node.is_sass`, any other child is
recursed into (`for node in self.walk_nodes(node, original)`). -/
def walkNodelist : List TNode → List SassRef
  | [] => []
  | .sassSrc p ip s :: rest => (if s then [⟨p, ip⟩] else []) ++ walkNodelist rest
  | .elem cs :: rest => walkNodelist cs ++ walkNodelist rest

/-- Embeds `Command.walk_nodes(node)`: iterate the parser-resolved node list of
`node`, yielding the `sass_src` nodes found recursively. -/
def walk_nodes (node : TNode) : List SassRef :=
  walkNodelist (getNodelist node)

/-- Specification-side selector: the reference carried by a node, when the
node is a sass-source node marked `is_sass = true` (else nothing). -/
def pickSass : TNode → List SassRef
  | .sassSrc p ip s => if s then [⟨p, ip⟩] else []
  | .elem _ => []

/-- All nodes occurring strictly below the nodes of a node list (each listed
node and, recursively, everything below it), in traversal order. -/
def descList : List TNode → List TNode
  | [] => []
  | .sassSrc p ip s :: rest => .sassSrc p ip s :: descList rest
  | .elem cs :: rest => .elem cs :: (descList cs ++ descList rest)

/-- Meaning of "anywhere in the tree" of a parsed template rooted at `node`: every node
reachable from `node` through the parser's nodelist resolution. -/
def descendants (node : TNode) : List TNode :=
  descList (getNodelist node)

/-! ### Parse outcomes, filesystem and driver state -/

/-- The exceptions `parse_template` catches around `self.parser.parse`:
`IOError`, `TemplateSyntaxError`, `TemplateDoesNotExist`,
`UnicodeDecodeError`. -/
inductive ParseFail where
  | ioError
  | syntaxError (msg : String)
  | doesNotExist
  | decodeError
deriving DecidableEq, Repr

/-- What the external parser and the subsequent node walk do for one template:
parsing raises one of the four caught exceptions, or parsing succeeds but
listing `walk_nodes` raises (e.g. a broken base template encountered while the
parser resolves nested node lists), or both succeed with parse tree `root`. -/
inductive TemplateSrc where
  | parseFail (k : ParseFail)
  | walkFail (msg : String)
  | ok (root : TNode)

/-- One discovered template file: its path (`template_name`) and what parsing
and walking it does. -/
structure Template where
  name : String
  src : TemplateSrc

/-- Filesystem effects performed by the command, recorded as a trace:
a file write (`open(destpath, 'w')` + `fh.write`), a file removal
(`os.remove`) and an invocation of the external compiler (`sass.compile`). -/
inductive FSEvent where
  | write (path content : String)
  | remove (path : String)
  | compilerCall (include_paths : List String) (filename style : String)
deriving DecidableEq, Repr

/-- The filesystem, as a partial map from absolute paths to file contents. -/
def FS : Type := String → Option String

/-- Write (create or overwrite) a file. -/
def fsWrite (fs : FS) (p c : String) : FS :=
  fun q => if q = p then some c else fs q

/-- Remove a file (`os.remove`). -/
def fsRemove (fs : FS) (p : String) : FS :=
  fun q => if q = p then none else fs q

/-- Embeds `os.path.isfile`. -/
def isfile (fs : FS) (p : String) : Bool :=
  (fs p).isSome

/-- An empty filesystem. -/
def fsEmpty : FS := fun _ => none

/-- A filesystem holding exactly the given path/content pairs. -/
def fsOfList (l : List (String × String)) : FS :=
  fun q => (l.find? (fun pc => pc.1 = q)).map (·.2)

/-- The command's configuration: the two CLI flags (`--show-errors`,
`--delete-files`, both off by default), the output style
(`SASS_OUTPUT_STYLE`, default `"compact"`), and the two external services:
the storage resolver `find_file` (from `sass_processor.storage`) and the
`sass.compile` binding, which either returns the compiled CSS text or raises
(modelled as `Except`). -/
structure Config where
  show_errors : Bool
  delete_files : Bool
  output_style : String
  find_file : String → Option String
  sass_compile : List String → String → String → Except String String

/-- The `SASS_OUTPUT_STYLE` default from `Command.__init__`. -/
def defaultOutputStyle : String := "compact"

/-- The `SASS_TEMPLATE_EXTS` default from `Command.__init__` (note: assigned to
`self.template_exts` but never read again anywhere in the command). -/
def defaultTemplateExts : List String := [".html"]

/-- Mutable state of one `handle` run: the filesystem, the effect trace,
`self.compiled_files` (a Python list, appended to), and the lines written to
`self.stdout`. -/
structure St where
  fs : FS
  events : List FSEvent
  compiled_files : List String
  out : List String

/-! ### The executor: `compile` and `delete_file` -/

/-- Embeds `Command.compile(node)`.  Resolve `node.path`; if unresolved or already in
`compiled_files`, return.  Otherwise call `sass.compile(include_paths=...,
filename=..., output_style=...)`; an exception from it propagates (second
component `some e`).  On success write the result to
`os.path.splitext(sass_filename)[0] + '.css'`, append the resolved name to
`compiled_files` and write one progress line. -/
def compile (cfg : Config) (node : SassRef) (st : St) : St × Option String :=
  match cfg.find_file node.path with
  | none => (st, none)
  | some sass_filename =>
    if sass_filename ∈ st.compiled_files then (st, none)
    else
      let st1 : St := { st with
        events := st.events ++ [.compilerCall node.include_paths sass_filename cfg.output_style] }
      match cfg.sass_compile node.include_paths sass_filename cfg.output_style with
      | .error e => (st1, some e)
      | .ok content =>
        let destpath := splitextRoot sass_filename ++ ".css"
        ({ st1 with
            fs := fsWrite st1.fs destpath content
            events := st1.events ++ [.write destpath content]
            compiled_files := st1.compiled_files ++ [sass_filename]
            out := st1.out ++ ["Compiled SASS/SCSS file: '" ++ node.path ++ "'\n"] },
         none)

/-- Embeds `Command.delete_file(node)`.  Resolve `node.path`; if unresolved, return.
If the sibling `.css` file exists, remove it, append the resolved name to
`compiled_files` and write one progress line; otherwise do nothing. -/
def delete_file (cfg : Config) (node : SassRef) (st : St) : St :=
  match cfg.find_file node.path with
  | none => st
  | some sass_filename =>
    let destpath := splitextRoot sass_filename ++ ".css"
    if isfile st.fs destpath then
      { st with
          fs := fsRemove st.fs destpath
          events := st.events ++ [.remove destpath]
          compiled_files := st.compiled_files ++ [sass_filename]
          out := st.out ++ ["Deleted '" ++ destpath ++ "'\n"] }
    else st

/-! ### The driver: `parse_template` and `handle` -/

/-- The per-node loop at the end of `parse_template`: dispatch each walked
node to `delete_file` or `compile` depending on `--delete-files`.  An
exception raised by `compile` is not caught anywhere, so it aborts the loop
(and, upward, the whole run). -/
def runNodes (cfg : Config) : List SassRef → St → St × Option String
  | [], st => (st, none)
  | node :: rest, st =>
    if cfg.delete_files then runNodes cfg rest (delete_file cfg node st)
    else
      match compile cfg node st with
      | (st', none) => runNodes cfg rest st'
      | (st', some e) => (st', some e)

/-- Message of the `UnboundLocalError` raised when the fall-through after the
`UnicodeDecodeError` handler evaluates `self.walk_nodes(template)` with the
local `template` never assigned. -/
def unboundTemplateError : String :=
  "local variable 'template' referenced before assignment"

/-- Append a diagnostic line when `--show-errors` is set. -/
def logIf (b : Bool) (st : St) (line : String) : St :=
  if b then { st with out := st.out ++ [line] } else st

/-- Embeds `Command.parse_template(template_name)`.

The four parse exceptions are caught; the first three handlers `return`, the
`UnicodeDecodeError` handler does NOT `return`, so control falls through to
`list(self.walk_nodes(template))` where the local variable `template` was
never bound — the resulting `UnboundLocalError` is caught by the generic
`except Exception` handler, producing a second diagnostic line.  An exception
while listing `walk_nodes` is caught and skips the template; the per-node
compile/delete loop runs in the `else:` clause, outside every handler, so its
exceptions propagate. -/
def parse_template (cfg : Config) (tpl : Template) (st : St) : St × Option String :=
  match tpl.src with
  | .parseFail .ioError =>
    (logIf cfg.show_errors st ("Unreadable template at: " ++ tpl.name ++ "\n"), none)
  | .parseFail (.syntaxError e) =>
    (logIf cfg.show_errors st ("Invalid template " ++ tpl.name ++ ": " ++ e ++ "\n"), none)
  | .parseFail .doesNotExist =>
    (logIf cfg.show_errors st ("Non-existent template at: " ++ tpl.name ++ "\n"), none)
  | .parseFail .decodeError =>
    let st1 := logIf cfg.show_errors st
      ("UnicodeDecodeError while trying to read template " ++ tpl.name ++ "\n")
    (logIf cfg.show_errors st1
      ("Error parsing template " ++ tpl.name ++ ": " ++ unboundTemplateError ++ "\n"), none)
  | .walkFail e =>
    (logIf cfg.show_errors st ("Error parsing template " ++ tpl.name ++ ": " ++ e ++ "\n"), none)
  | .ok root => runNodes cfg (walk_nodes root) st

/-- The template loop in `Command.handle`. -/
def runTemplates (cfg : Config) : List Template → St → St × Option String
  | [], st => (st, none)
  | tpl :: rest, st =>
    match parse_template cfg tpl st with
    | (st', none) => runTemplates cfg rest st'
    | (st', some e) => (st', some e)

/-- The summary line `handle` prints on normal termination (the framework's
`stdout.write` appends the trailing newline). -/
def summaryLine (cfg : Config) (n : Nat) : String :=
  if cfg.delete_files then
    "Successfully deleted " ++ toString n ++ " previously generated `*.css` files."
  else
    "Successfully compiled " ++ toString n ++ " referred SASS/SCSS files."

/-- Embeds `Command.handle`, after template discovery: reset `compiled_files`,
process every discovered template, then print the summary with
`len(self.compiled_files)`.  The template list stands for the set returned by
`find_templates` (pre-flight configuration errors raised there are outside
this function); an uncaught exception from the loop propagates and no summary
is printed. -/
def handle (cfg : Config) (templates : List Template) (fs0 : FS) : St × Option String :=
  let st0 : St := { fs := fs0, events := [], compiled_files := [], out := [] }
  match runTemplates cfg templates st0 with
  | (st, some e) => (st, some e)
  | (st, none) =>
    ({ st with out := st.out ++ [summaryLine cfg st.compiled_files.length] }, none)

/-! ### `find_templates`: the file-name filter and directory scan -/

/-- The per-file-name test in `Command.find_templates`:
`not name.startswith('.') and any(fnmatch(name, "*%s" % glob) for glob in
extensions)` where `extensions = 'html'` is a STRING, so the loop iterates its
characters `'h'`, `'t'`, `'m'`, `'l'`; `fnmatch(name, "*X")` for a literal
one-character `X` holds iff `name` ends with that character. -/
def templateNameMatches (name : String) : Bool :=
  !(startsWithStr name ".") &&
    ("html".toList.map (fun c => String.mk [c])).any (fun glob => endsWithStr name glob)

/-- The directory scan of `Command.find_templates`: `listing` stands for the
concatenated `os.walk` output over all loader paths, as (directory, file
names) pairs; the result set is modelled as a deduplicated list. -/
def find_templates (listing : List (String × List String)) : List String :=
  (listing.flatMap fun rf =>
    rf.2.filterMap fun name =>
      if templateNameMatches name then some (pathJoin rf.1 name) else none).dedup

/-- Follows the spec's words, for comparison with `templateNameMatches`:
keep file names whose name ends in one of the configured allowed template
extensions (default `[".html"]`), excluding dotfiles. -/
def specTemplateNameMatches (exts : List String) (name : String) : Bool :=
  !(startsWithStr name ".") && exts.any (fun ext => endsWithStr name ext)

/-! ### Concrete example inputs (used by witnesses and counterexamples) -/

/-- A storage resolver knowing one source file. -/
def exResolver : String → Option String :=
  fun p => if p = "a.scss" then some "/srv/a.scss" else none

/-- A compiler binding that always succeeds. -/
def exCompilerOk : List String → String → String → Except String String :=
  fun _ f _ => .ok ("css:" ++ f)

/-- A compiler binding that always raises (e.g. a SASS syntax error in the
source file). -/
def exCompilerErr : List String → String → String → Except String String :=
  fun _ _ _ => .error "Invalid CSS"

/-- A reference the resolver can map. -/
def exNode : SassRef := ⟨"a.scss", ["/inc"]⟩

/-- A reference the resolver cannot map. -/
def exNodeMissing : SassRef := ⟨"missing.scss", []⟩

/-- A parse tree holding one compilable sass reference. -/
def exTree : TNode := .elem [.sassSrc "a.scss" ["/inc"] true]

/-- A template that parses and walks fine, holding one sass reference. -/
def exTplOne : Template := ⟨"page.html", .ok exTree⟩

/-- Compile mode, diagnostics off. -/
def exCfgCompile : Config := ⟨false, false, "compact", exResolver, exCompilerOk⟩

/-- Compile mode with a failing compiler. -/
def exCfgCompileErr : Config := ⟨false, false, "compact", exResolver, exCompilerErr⟩

/-- Delete mode. -/
def exCfgDelete : Config := ⟨false, true, "compact", exResolver, exCompilerOk⟩

/-- Compile mode with `--show-errors`. -/
def exCfgShow : Config := ⟨true, false, "compact", exResolver, exCompilerOk⟩

/-- Empty run state. -/
def exStEmpty : St := ⟨fsEmpty, [], [], []⟩

/-- Run state where the compiled artifact `/srv/a.css` exists. -/
def exStWithCss : St := ⟨fsOfList [("/srv/a.css", "old")], [], [], []⟩

/-! ### Run invariants (stated over the embedding) -/

/-- The CompiledSet invariant carried through a run: `compiled_files` holds no
duplicates and, in delete mode, the sibling `.css` artifact of every recorded
source has already been removed (which is what makes a second reference to
the same source a no-op). -/
def Inv (cfg : Config) (st : St) : Prop :=
  st.compiled_files.Nodup ∧
    (cfg.delete_files = true →
      ∀ f ∈ st.compiled_files, st.fs (splitextRoot f ++ ".css") = none)

/-- The filesystem-effect discipline of each mode: delete mode only removes
files, compile mode never removes one. -/
def eventOk : Bool → FSEvent → Prop
  | true, e => ∃ p, e = .remove p
  | false, e => ∀ p, e ≠ .remove p

/-- The external compiler never raises (for the configured output style). -/
def compilerTotal (cfg : Config) : Prop :=
  ∀ ip f, ∃ c, cfg.sass_compile ip f cfg.output_style = .ok c

/-! ### The walker yields exactly the `is_sass` sass-source nodes -/

theorem walkNodelist_eq_descList (l : List TNode) :
    walkNodelist l = (descList l).flatMap pickSass := by
  induction l using walkNodelist.induct with
  | case1 => simp [walkNodelist, descList]
  | case2 p ip s rest ih =>
    simp [walkNodelist, descList, pickSass, ih]
  | case3 cs rest ih1 ih2 =>
    simp [walkNodelist, descList, pickSass, ih1, ih2]

/-- C9: for every parsed template tree, `walk_nodes` yields exactly the
sass-source nodes marked `is_sass = true` occurring anywhere in the tree
(every node reachable through the parser's nodelist resolution), in traversal
order — every such node is yielded and nothing else is. -/
theorem C9_walk_nodes_exact (node : TNode) :
    walk_nodes node = (descendants node).flatMap pickSass := by
  unfold walk_nodes descendants
  exact walkNodelist_eq_descList _

/-! ### Unresolved references are silent no-ops -/

/-- C5: a reference whose logical path the resolver cannot map is a silent
no-op for both `compile` and `delete_file`: no error, no state change (no
file written or removed, nothing recorded, no output line), regardless of
`show_errors`. -/
theorem C5_unresolved_silent_noop (cfg : Config) (node : SassRef) (st : St)
    (h : cfg.find_file node.path = none) :
    compile cfg node st = (st, none) ∧ delete_file cfg node st = st := by
  constructor
  · unfold compile
    rw [h]
  · unfold delete_file
    rw [h]

theorem C5_witness :
    exCfgCompile.find_file exNodeMissing.path = none ∧
      compile exCfgCompile exNodeMissing exStWithCss = (exStWithCss, none) ∧
      delete_file exCfgCompile exNodeMissing exStWithCss = exStWithCss := by
  refine ⟨by decide, ?_⟩
  exact C5_unresolved_silent_noop exCfgCompile exNodeMissing exStWithCss (by decide)

/-! ### `compile` and `delete_file` functional correctness -/

/-- C3: when the resolver maps `node.path` to `f`, `f` is not yet in
`compiled_files` and the external compiler succeeds, `compile` invokes the
compiler with `include_paths = node.include_paths`, `filename = f` and the
configured output style, writes the result to the source path with its
extension replaced by `.css`, records `f` in `compiled_files`, and emits
exactly one progress line; and it does nothing when resolution fails or `f`
was already recorded (that guard is part of `compile`'s first line, proved
separately as C5 and C8). -/
theorem C3_compile_spec (cfg : Config) (node : SassRef) (st : St)
    (f content : String)
    (hres : cfg.find_file node.path = some f)
    (hnew : f ∉ st.compiled_files)
    (hcomp : cfg.sass_compile node.include_paths f cfg.output_style = .ok content) :
    compile cfg node st =
      ({ st with
          fs := fsWrite st.fs (splitextRoot f ++ ".css") content
          events := st.events ++
            [.compilerCall node.include_paths f cfg.output_style,
             .write (splitextRoot f ++ ".css") content]
          compiled_files := st.compiled_files ++ [f]
          out := st.out ++ ["Compiled SASS/SCSS file: '" ++ node.path ++ "'\n"] },
       none) := by
  unfold compile
  rw [hres]
  simp [hnew, hcomp]

theorem C3_witness :
    exCfgCompile.find_file exNode.path = some "/srv/a.scss" ∧
      "/srv/a.scss" ∉ exStEmpty.compiled_files ∧
      exCfgCompile.sass_compile exNode.include_paths "/srv/a.scss"
        exCfgCompile.output_style = .ok "css:/srv/a.scss" ∧
      compile exCfgCompile exNode exStEmpty =
        ({ exStEmpty with
            fs := fsWrite exStEmpty.fs ("/srv/a" ++ ".css") "css:/srv/a.scss"
            events := exStEmpty.events ++
              [.compilerCall exNode.include_paths "/srv/a.scss" exCfgCompile.output_style,
               .write ("/srv/a" ++ ".css") "css:/srv/a.scss"]
            compiled_files := exStEmpty.compiled_files ++ ["/srv/a.scss"]
            out := exStEmpty.out ++
              ["Compiled SASS/SCSS file: '" ++ exNode.path ++ "'\n"] },
         none) := by
  refine ⟨by decide, by decide, by rfl, ?_⟩
  have h := C3_compile_spec exCfgCompile exNode exStEmpty "/srv/a.scss" "css:/srv/a.scss"
    (by decide) (by decide) (by rfl)
  rw [h]
  have hsplit : splitextRoot "/srv/a.scss" = "/srv/a" := by decide
  rw [hsplit]

/-- C4: `delete_file` resolves `node.path`; on resolver failure it is a
no-op; when the sibling `<root>.css` artifact exists it removes exactly that
file, records the resolved path and emits one progress line; when the
artifact does not exist it is a no-op.  In particular at most one file is
deleted per call. -/
theorem C4_delete_file_spec (cfg : Config) (node : SassRef) (st : St) :
    (cfg.find_file node.path = none → delete_file cfg node st = st) ∧
    ∀ f, cfg.find_file node.path = some f →
      (isfile st.fs (splitextRoot f ++ ".css") = true →
        delete_file cfg node st =
          { st with
              fs := fsRemove st.fs (splitextRoot f ++ ".css")
              events := st.events ++ [.remove (splitextRoot f ++ ".css")]
              compiled_files := st.compiled_files ++ [f]
              out := st.out ++
                ["Deleted '" ++ (splitextRoot f ++ ".css") ++ "'\n"] }) ∧
      (isfile st.fs (splitextRoot f ++ ".css") = false →
        delete_file cfg node st = st) := by
  refine ⟨fun h => ?_, fun f hf => ⟨fun hex => ?_, fun hmiss => ?_⟩⟩
  · unfold delete_file
    rw [h]
  · unfold delete_file
    rw [hf]
    simp [hex]
  · unfold delete_file
    rw [hf]
    simp [hmiss]

theorem C4_witness :
    exCfgDelete.find_file exNode.path = some "/srv/a.scss" ∧
      isfile exStWithCss.fs (splitextRoot "/srv/a.scss" ++ ".css") = true ∧
      delete_file exCfgDelete exNode exStWithCss =
        { exStWithCss with
            fs := fsRemove exStWithCss.fs (splitextRoot "/srv/a.scss" ++ ".css")
            events := exStWithCss.events ++
              [.remove (splitextRoot "/srv/a.scss" ++ ".css")]
            compiled_files := exStWithCss.compiled_files ++ ["/srv/a.scss"]
            out := exStWithCss.out ++
              ["Deleted '" ++ (splitextRoot "/srv/a.scss" ++ ".css") ++ "'\n"] } := by
  refine ⟨by decide, by decide, ?_⟩
  exact ((C4_delete_file_spec exCfgDelete exNode exStWithCss).2 "/srv/a.scss"
    (by decide)).1 (by decide)

/-! ### Parse failures: the `UnicodeDecodeError` handler has no `return` -/

/-- C6 (code bug): with `--show-errors` set, a template whose read raises
`UnicodeDecodeError` is indeed skipped (nothing compiled or deleted), but TWO
diagnostic lines are emitted rather than exactly one: the handler for
`UnicodeDecodeError` lacks the `return` its three sibling handlers have, so
control falls through to `list(self.walk_nodes(template))`, where the local
`template` was never assigned; the resulting `UnboundLocalError` is caught by
the generic `except Exception` handler, which logs a second line. -/
theorem C6_decode_error_two_lines :
    (parse_template exCfgShow ⟨"broken.html", .parseFail .decodeError⟩ exStEmpty).1.out =
      ["UnicodeDecodeError while trying to read template broken.html\n",
       "Error parsing template broken.html: " ++ unboundTemplateError ++ "\n"] ∧
    (parse_template exCfgShow ⟨"broken.html", .parseFail .decodeError⟩
        exStEmpty).1.compiled_files = [] ∧
    (parse_template exCfgShow ⟨"broken.html", .parseFail .decodeError⟩
        exStEmpty).1.events = [] ∧
    (parse_template exCfgShow ⟨"broken.html", .parseFail .decodeError⟩
        exStEmpty).2 = none := by
  refine ⟨by decide, by decide, by decide, by decide⟩

/-! ### `find_templates` matches single characters, not extensions -/

/-- C2 (code bug): `find_templates` sets `extensions = 'html'` — a string,
not a list — so the glob loop iterates the characters `h`, `t`, `m`, `l` and
keeps every non-dotfile whose name merely ends in one of those characters,
ignoring `SASS_TEMPLATE_EXTS` entirely.  Concretely it keeps `readme.txt`
(which the spec's filter rejects for the default `[".html"]`) and drops
`style.jinja` (which the spec's filter keeps when `.jinja` is configured). -/
theorem C2_find_templates_bug :
    find_templates [("/templates", ["readme.txt", "style.jinja"])] =
      ["/templates/readme.txt"] ∧
    specTemplateNameMatches defaultTemplateExts "readme.txt" = false ∧
    specTemplateNameMatches [".jinja"] "style.jinja" = true ∧
    templateNameMatches "style.jinja" = false := by
  refine ⟨by decide, by decide, by decide, by decide⟩

/-! ### C8: a source path is recorded at most once per run -/

theorem compile_preserves_Inv (cfg : Config) (node : SassRef) (st : St)
    (hm : cfg.delete_files = false) (h : Inv cfg st) :
    Inv cfg (compile cfg node st).1 := by
  have hvac : ∀ s : St, s.compiled_files.Nodup → Inv cfg s := by
    intro s hs
    exact ⟨hs, fun ht => absurd ht (by simp [hm])⟩
  unfold compile
  cases hf : cfg.find_file node.path with
  | none => exact h
  | some f =>
    by_cases hmem : f ∈ st.compiled_files
    · simp only [hmem, if_true]
      exact h
    · simp only [hmem, if_false]
      cases hcr : cfg.sass_compile node.include_paths f cfg.output_style with
      | error e => exact hvac _ h.1
      | ok content =>
        apply hvac
        simp only [List.nodup_append, List.nodup_cons, List.nodup_nil]
        exact ⟨h.1, by simp, by simp [List.disjoint_singleton, hmem]⟩

theorem delete_file_preserves_Inv (cfg : Config) (node : SassRef) (st : St)
    (hm : cfg.delete_files = true) (h : Inv cfg st) :
    Inv cfg (delete_file cfg node st) := by
  unfold delete_file
  cases hf : cfg.find_file node.path with
  | none => exact h
  | some f =>
    by_cases hex : isfile st.fs (splitextRoot f ++ ".css")
    · simp only [hex, if_true]
      have hnotmem : f ∉ st.compiled_files := by
        intro hmem
        have hnone := h.2 hm f hmem
        rw [isfile, hnone] at hex
        simp at hex
      constructor
      · simp only [List.nodup_append, List.nodup_cons, List.nodup_nil]
        exact ⟨h.1, by simp, by simp [List.disjoint_singleton, hnotmem]⟩
      · intro _ g hg
        rcases List.mem_append.1 hg with hgl | hgf
        · show fsRemove st.fs (splitextRoot f ++ ".css") (splitextRoot g ++ ".css") = none
          unfold fsRemove
          split
          · rfl
          · exact h.2 hm g hgl
        · have hgf' : g = f := by simpa using hgf
          subst hgf'
          show fsRemove st.fs (splitextRoot g ++ ".css") (splitextRoot g ++ ".css") = none
          unfold fsRemove
          simp
    · simp only [hex, if_false]
      exact h

theorem runNodes_preserves_Inv (cfg : Config) (ns : List SassRef) :
    ∀ st : St, Inv cfg st → Inv cfg (runNodes cfg ns st).1 := by
  induction ns with
  | nil => intro st h; exact h
  | cons n rest ih =>
    intro st h
    cases hb : cfg.delete_files with
    | true =>
      simp only [runNodes, hb, if_true]
      exact ih _ (delete_file_preserves_Inv cfg n st hb h)
    | false =>
      simp only [runNodes, hb, if_false]
      have hcInv := compile_preserves_Inv cfg n st hb h
      rcases hcr : compile cfg n st with ⟨st', e?⟩
      rw [hcr] at hcInv
      cases e? with
      | none => exact ih _ hcInv
      | some e => exact hcInv

theorem logIf_preserves_Inv (cfg : Config) (b : Bool) (st : St) (line : String)
    (h : Inv cfg st) : Inv cfg (logIf b st line) := by
  unfold logIf
  split
  · exact h
  · exact h

theorem parse_template_preserves_Inv (cfg : Config) (tpl : Template) (st : St)
    (h : Inv cfg st) : Inv cfg (parse_template cfg tpl st).1 := by
  unfold parse_template
  rcases tpl with ⟨name, src⟩
  cases src with
  | parseFail k =>
    cases k with
    | ioError => exact logIf_preserves_Inv _ _ _ _ h
    | syntaxError e => exact logIf_preserves_Inv _ _ _ _ h
    | doesNotExist => exact logIf_preserves_Inv _ _ _ _ h
    | decodeError => exact logIf_preserves_Inv _ _ _ _ (logIf_preserves_Inv _ _ _ _ h)
  | walkFail e => exact logIf_preserves_Inv _ _ _ _ h
  | ok root => exact runNodes_preserves_Inv cfg _ st h

theorem runTemplates_preserves_Inv (cfg : Config) (ts : List Template) :
    ∀ st : St, Inv cfg st → Inv cfg (runTemplates cfg ts st).1 := by
  induction ts with
  | nil => intro st h; exact h
  | cons tpl rest ih =>
    intro st h
    have hpInv := parse_template_preserves_Inv cfg tpl st h
    simp only [runTemplates]
    rcases hpr : parse_template cfg tpl st with ⟨st', e?⟩
    rw [hpr] at hpInv
    cases e? with
    | none => exact ih _ hpInv
    | some e => exact hpInv

/-- C8: over every run, in both compile and delete mode (and even when the
run is aborted by a compiler exception), a resolved source path is recorded
in `compiled_files` at most once, so the reported count
`len(self.compiled_files)` equals the number of distinct source files acted
upon. -/
theorem C8_compiled_files_nodup (cfg : Config) (ts : List Template) (fs0 : FS) :
    ((handle cfg ts fs0).1.compiled_files).Nodup ∧
      ((handle cfg ts fs0).1.compiled_files).dedup.length =
        ((handle cfg ts fs0).1.compiled_files).length := by
  have hInv0 : Inv cfg { fs := fs0, events := [], compiled_files := [], out := [] } := by
    exact ⟨List.nodup_nil, fun _ f hf => absurd hf (List.not_mem_nil f)⟩
  have hInv := runTemplates_preserves_Inv cfg ts _ hInv0
  have hnodup : ((handle cfg ts fs0).1.compiled_files).Nodup := by
    rcases hrt : runTemplates cfg ts
        { fs := fs0, events := [], compiled_files := [], out := [] } with ⟨st, e?⟩
    rw [hrt] at hInv
    cases e? with
    | none =>
      simp only [handle, hrt]
      exact hInv.1
    | some e =>
      simp only [handle, hrt]
      exact hInv.1
  exact ⟨hnodup, by rw [List.dedup_eq_self.2 hnodup]⟩

/-! ### C10: each mode only performs its own filesystem effects -/

theorem compile_preserves_evOk (cfg : Config) (node : SassRef) (st : St)
    (hm : cfg.delete_files = false)
    (h : ∀ e ∈ st.events, eventOk cfg.delete_files e) :
    ∀ e ∈ (compile cfg node st).1.events, eventOk cfg.delete_files e := by
  unfold compile
  cases hf : cfg.find_file node.path with
  | none => exact h
  | some f =>
    by_cases hmem : f ∈ st.compiled_files
    · simp only [hmem, if_true]
      exact h
    · simp only [hmem, if_false]
      cases hcr : cfg.sass_compile node.include_paths f cfg.output_style with
      | error e =>
        intro ev hev
        rcases List.mem_append.1 hev with hold | hnew
        · exact h ev hold
        · have : ev = FSEvent.compilerCall node.include_paths f cfg.output_style := by
            simpa using hnew
          subst this
          rw [hm]
          simp [eventOk]
      | ok content =>
        intro ev hev
        rcases List.mem_append.1 hev with hev1 | hw
        · rcases List.mem_append.1 hev1 with hold | hcc
          · exact h ev hold
          · have : ev = FSEvent.compilerCall node.include_paths f cfg.output_style := by
              simpa using hcc
            subst this
            rw [hm]
            simp [eventOk]
        · have : ev = FSEvent.write (splitextRoot f ++ ".css") content := by
            simpa using hw
          subst this
          rw [hm]
          simp [eventOk]

theorem delete_file_preserves_evOk (cfg : Config) (node : SassRef) (st : St)
    (hm : cfg.delete_files = true)
    (h : ∀ e ∈ st.events, eventOk cfg.delete_files e) :
    ∀ e ∈ (delete_file cfg node st).events, eventOk cfg.delete_files e := by
  unfold delete_file
  cases hf : cfg.find_file node.path with
  | none => exact h
  | some f =>
    by_cases hex : isfile st.fs (splitextRoot f ++ ".css")
    · simp only [hex, if_true]
      intro ev hev
      rcases List.mem_append.1 hev with hold | hnew
      · exact h ev hold
      · have : ev = FSEvent.remove (splitextRoot f ++ ".css") := by simpa using hnew
        subst this
        rw [hm]
        exact ⟨splitextRoot f ++ ".css", rfl⟩
    · simp only [hex, if_false]
      exact h

theorem runNodes_preserves_evOk (cfg : Config) (ns : List SassRef) :
    ∀ st : St, (∀ e ∈ st.events, eventOk cfg.delete_files e) →
      ∀ e ∈ (runNodes cfg ns st).1.events, eventOk cfg.delete_files e := by
  induction ns with
  | nil => intro st h; exact h
  | cons n rest ih =>
    intro st h
    simp only [runNodes]
    by_cases hb : cfg.delete_files = true
    · rw [if_pos hb]
      exact ih _ (delete_file_preserves_evOk cfg n st hb h)
    · rw [if_neg hb]
      have hb' : cfg.delete_files = false := by simpa using hb
      have hcEv := compile_preserves_evOk cfg n st hb' h
      rcases hcr : compile cfg n st with ⟨st', e?⟩
      rw [hcr] at hcEv
      cases e? with
      | none => exact ih _ hcEv
      | some e => exact hcEv

theorem logIf_preserves_evOk (cfg : Config) (b : Bool) (st : St) (line : String)
    (h : ∀ e ∈ st.events, eventOk cfg.delete_files e) :
    ∀ e ∈ (logIf b st line).events, eventOk cfg.delete_files e := by
  unfold logIf
  split
  · exact h
  · exact h

theorem parse_template_preserves_evOk (cfg : Config) (tpl : Template) (st : St)
    (h : ∀ e ∈ st.events, eventOk cfg.delete_files e) :
    ∀ e ∈ (parse_template cfg tpl st).1.events, eventOk cfg.delete_files e := by
  unfold parse_template
  rcases tpl with ⟨name, src⟩
  cases src with
  | parseFail k =>
    cases k with
    | ioError => exact logIf_preserves_evOk _ _ _ _ h
    | syntaxError e => exact logIf_preserves_evOk _ _ _ _ h
    | doesNotExist => exact logIf_preserves_evOk _ _ _ _ h
    | decodeError => exact logIf_preserves_evOk _ _ _ _ (logIf_preserves_evOk _ _ _ _ h)
  | walkFail e => exact logIf_preserves_evOk _ _ _ _ h
  | ok root => exact runNodes_preserves_evOk cfg _ st h

theorem runTemplates_preserves_evOk (cfg : Config) (ts : List Template) :
    ∀ st : St, (∀ e ∈ st.events, eventOk cfg.delete_files e) →
      ∀ e ∈ (runTemplates cfg ts st).1.events, eventOk cfg.delete_files e := by
  induction ts with
  | nil => intro st h; exact h
  | cons tpl rest ih =>
    intro st h
    have hpEv := parse_template_preserves_evOk cfg tpl st h
    simp only [runTemplates]
    rcases hpr : parse_template cfg tpl st with ⟨st', e?⟩
    rw [hpr] at hpEv
    cases e? with
    | none => exact ih _ hpEv
    | some e => exact hpEv

theorem handle_events_ok (cfg : Config) (ts : List Template) (fs0 : FS) :
    ∀ e ∈ (handle cfg ts fs0).1.events, eventOk cfg.delete_files e := by
  have h0 : ∀ e ∈ ([] : List FSEvent), eventOk cfg.delete_files e := by
    intro e he
    exact absurd he (List.not_mem_nil e)
  have hEv := runTemplates_preserves_evOk cfg ts
    { fs := fs0, events := [], compiled_files := [], out := [] } h0
  rcases hrt : runTemplates cfg ts
      { fs := fs0, events := [], compiled_files := [], out := [] } with ⟨st, e?⟩
  rw [hrt] at hEv
  cases e? with
  | none =>
    simp only [handle, hrt]
    exact hEv
  | some e =>
    simp only [handle, hrt]
    exact hEv

/-- C10: mode frame property — in delete mode (`--delete-files`) a run's
filesystem effect trace consists of removals only (in particular the compiler
is never invoked — every invocation is recorded as a `compilerCall` event —
and no file is created or written); in compile mode the trace never contains
a removal. -/
theorem C10_mode_frame (cfg : Config) (ts : List Template) (fs0 : FS) :
    (cfg.delete_files = true →
      ∀ e ∈ (handle cfg ts fs0).1.events, ∃ p, e = FSEvent.remove p) ∧
    (cfg.delete_files = false →
      ∀ e ∈ (handle cfg ts fs0).1.events, ∀ p, e ≠ FSEvent.remove p) := by
  have h := handle_events_ok cfg ts fs0
  constructor
  · intro hm e he
    have := h e he
    rw [hm] at this
    exact this
  · intro hm e he
    have := h e he
    rw [hm] at this
    exact this

theorem C10_witness :
    exCfgDelete.delete_files = true ∧
      ∀ e ∈ (handle exCfgDelete [exTplOne]
          (fsOfList [("/srv/a.css", "old")])).1.events, ∃ p, e = FSEvent.remove p := by
  exact ⟨rfl, (C10_mode_frame exCfgDelete [exTplOne]
    (fsOfList [("/srv/a.css", "old")])).1 rfl⟩

/-! ### C1: which errors abort the run -/

theorem compile_ok_of_total (cfg : Config) (node : SassRef) (st : St)
    (h : compilerTotal cfg) : (compile cfg node st).2 = none := by
  unfold compile
  cases hf : cfg.find_file node.path with
  | none => rfl
  | some f =>
    by_cases hmem : f ∈ st.compiled_files
    · simp only [hmem, if_true]
    · obtain ⟨c, hc⟩ := h node.include_paths f
      simp only [hmem, if_false, hc]

theorem runNodes_ok (cfg : Config)
    (h : cfg.delete_files = true ∨ compilerTotal cfg) (ns : List SassRef) :
    ∀ st : St, (runNodes cfg ns st).2 = none := by
  induction ns with
  | nil => intro st; rfl
  | cons n rest ih =>
    intro st
    simp only [runNodes]
    by_cases hb : cfg.delete_files = true
    · rw [if_pos hb]
      exact ih _
    · rw [if_neg hb]
      have ht : compilerTotal cfg := by
        rcases h with h | h
        · exact absurd h hb
        · exact h
      have hok := compile_ok_of_total cfg n st ht
      rcases hcr : compile cfg n st with ⟨st', e?⟩
      rw [hcr] at hok
      cases e? with
      | none => exact ih _
      | some e => exact absurd hok (by simp)

theorem parse_template_ok (cfg : Config)
    (h : cfg.delete_files = true ∨ compilerTotal cfg) (tpl : Template) (st : St) :
    (parse_template cfg tpl st).2 = none := by
  unfold parse_template
  rcases tpl with ⟨name, src⟩
  cases src with
  | parseFail k => cases k <;> rfl
  | walkFail e => rfl
  | ok root => exact runNodes_ok cfg h _ st

theorem runTemplates_ok (cfg : Config)
    (h : cfg.delete_files = true ∨ compilerTotal cfg) (ts : List Template) :
    ∀ st : St, (runTemplates cfg ts st).2 = none := by
  induction ts with
  | nil => intro st; rfl
  | cons tpl rest ih =>
    intro st
    simp only [runTemplates]
    have hok := parse_template_ok cfg h tpl st
    rcases hpr : parse_template cfg tpl st with ⟨st', e?⟩
    rw [hpr] at hok
    cases e? with
    | none => exact ih _
    | some e => exact absurd hok (by simp)

/-- C1 counterexample: the claim "no error raised while processing any
reference escalates to a process-level failure" is false.  With a resolvable
reference whose source the external compiler rejects (`sass.compile` raises,
e.g. on a SASS syntax error), the exception propagates out of
`Command.compile` — the per-node loop sits in the `else:` clause of
`parse_template`'s try/except, outside every handler — so `handle` aborts:
the compiler was invoked (one `compilerCall` event), the run ends with the
error, and the summary line is never printed. -/
theorem C1_counterexample :
    (handle exCfgCompileErr [exTplOne] fsEmpty).2 = some "Invalid CSS" ∧
    (handle exCfgCompileErr [exTplOne] fsEmpty).1.out = [] ∧
    (handle exCfgCompileErr [exTplOne] fsEmpty).1.events =
      [.compilerCall ["/inc"] "/srv/a.scss" "compact"] := by
  have hrun : handle exCfgCompileErr [exTplOne] fsEmpty =
      ({ fs := fsEmpty, events := [.compilerCall ["/inc"] "/srv/a.scss" "compact"],
         compiled_files := [], out := [] }, some "Invalid CSS") := by
    simp [handle, runTemplates, parse_template, exTplOne, walk_nodes, exTree, getNodelist,
      walkNodelist, runNodes, compile, exCfgCompileErr, exResolver, exCompilerErr, exNode]
  rw [hrun]
  exact ⟨rfl, rfl, rfl⟩

/-- C1 amended: once the run has started, parse errors and walk errors never
escalate — and whenever no attempted compilation raises (in particular in
delete mode, which never invokes the compiler), `handle` terminates normally
and prints the summary line last.  Only an exception raised by the external
compiler while compiling a reference (beyond pre-flight configuration
errors) aborts the run. -/
theorem C1_amended_no_escalation (cfg : Config) (ts : List Template) (fs0 : FS)
    (h : cfg.delete_files = true ∨ compilerTotal cfg) :
    (handle cfg ts fs0).2 = none ∧
      (handle cfg ts fs0).1.out.getLast? =
        some (summaryLine cfg (handle cfg ts fs0).1.compiled_files.length) := by
  have hok := runTemplates_ok cfg h ts
    { fs := fs0, events := [], compiled_files := [], out := [] }
  rcases hrt : runTemplates cfg ts
      { fs := fs0, events := [], compiled_files := [], out := [] } with ⟨st, e?⟩
  rw [hrt] at hok
  cases e? with
  | some e => exact absurd hok (by simp)
  | none =>
    constructor
    · simp only [handle, hrt]
    · simp only [handle, hrt]
      exact List.getLast?_concat _

theorem C1_amended_witness :
    exCfgDelete.delete_files = true ∧
      ((handle exCfgDelete [exTplOne] fsEmpty).2 = none ∧
        (handle exCfgDelete [exTplOne] fsEmpty).1.out.getLast? =
          some (summaryLine exCfgDelete
            (handle exCfgDelete [exTplOne] fsEmpty).1.compiled_files.length)) := by
  exact ⟨rfl, C1_amended_no_escalation exCfgDelete [exTplOne] fsEmpty (Or.inl rfl)⟩

/-! ### C7: compile mode reads nothing from the filesystem state, hence a
second run over an unchanged template set repeats the first run's outputs -/

theorem logIf_compiled_files (b : Bool) (st : St) (line : String) :
    (logIf b st line).compiled_files = st.compiled_files := by
  unfold logIf
  split <;> rfl

theorem logIf_events (b : Bool) (st : St) (line : String) :
    (logIf b st line).events = st.events := by
  unfold logIf
  split <;> rfl

theorem logIf_out (b : Bool) (st st' : St) (line : String) (ho : st.out = st'.out) :
    (logIf b st line).out = (logIf b st' line).out := by
  unfold logIf
  split <;> simp [ho]

theorem compile_shadow (cfg : Config) (node : SassRef) (st st' : St)
    (hc : st.compiled_files = st'.compiled_files)
    (he : st.events = st'.events)
    (ho : st.out = st'.out) :
    (compile cfg node st).1.compiled_files = (compile cfg node st').1.compiled_files ∧
    (compile cfg node st).1.events = (compile cfg node st').1.events ∧
    (compile cfg node st).1.out = (compile cfg node st').1.out ∧
    (compile cfg node st).2 = (compile cfg node st').2 := by
  unfold compile
  cases hf : cfg.find_file node.path with
  | none => exact ⟨hc, he, ho, rfl⟩
  | some f =>
    by_cases hmem : f ∈ st.compiled_files
    · have hmem' : f ∈ st'.compiled_files := hc ▸ hmem
      simp only [hmem, hmem', if_true]
      exact ⟨hc, he, ho, by trivial⟩
    · have hmem' : f ∉ st'.compiled_files := hc ▸ hmem
      simp only [hmem, hmem', if_false]
      cases hcr : cfg.sass_compile node.include_paths f cfg.output_style with
      | error e => exact ⟨hc, by rw [he], ho, rfl⟩
      | ok content => exact ⟨by rw [hc], by rw [he], by rw [ho], rfl⟩

theorem runNodes_shadow (cfg : Config) (hm : cfg.delete_files = false)
    (ns : List SassRef) :
    ∀ st st' : St, st.compiled_files = st'.compiled_files →
      st.events = st'.events → st.out = st'.out →
      (runNodes cfg ns st).1.compiled_files = (runNodes cfg ns st').1.compiled_files ∧
      (runNodes cfg ns st).1.events = (runNodes cfg ns st').1.events ∧
      (runNodes cfg ns st).1.out = (runNodes cfg ns st').1.out ∧
      (runNodes cfg ns st).2 = (runNodes cfg ns st').2 := by
  induction ns with
  | nil => intro st st' hc he ho; exact ⟨hc, he, ho, rfl⟩
  | cons n rest ih =>
    intro st st' hc he ho
    simp only [runNodes]
    rw [if_neg (by simp [hm]), if_neg (by simp [hm])]
    obtain ⟨hc1, he1, ho1, hs1⟩ := compile_shadow cfg n st st' hc he ho
    rcases h1 : compile cfg n st with ⟨s1, e1⟩
    rcases h2 : compile cfg n st' with ⟨s2, e2⟩
    rw [h1, h2] at hc1 he1 ho1 hs1
    simp only at hc1 he1 ho1 hs1
    cases e1 with
    | none =>
      cases e2 with
      | none => exact ih s1 s2 hc1 he1 ho1
      | some e => exact absurd hs1 (by simp)
    | some e =>
      cases e2 with
      | none => exact absurd hs1 (by simp)
      | some e' => exact ⟨hc1, he1, ho1, by rw [hs1]⟩

theorem parse_template_shadow (cfg : Config) (hm : cfg.delete_files = false)
    (tpl : Template) (st st' : St)
    (hc : st.compiled_files = st'.compiled_files)
    (he : st.events = st'.events)
    (ho : st.out = st'.out) :
    (parse_template cfg tpl st).1.compiled_files =
        (parse_template cfg tpl st').1.compiled_files ∧
    (parse_template cfg tpl st).1.events = (parse_template cfg tpl st').1.events ∧
    (parse_template cfg tpl st).1.out = (parse_template cfg tpl st').1.out ∧
    (parse_template cfg tpl st).2 = (parse_template cfg tpl st').2 := by
  unfold parse_template
  rcases tpl with ⟨name, src⟩
  cases src with
  | parseFail k =>
    cases k with
    | ioError =>
      refine ⟨?_, ?_, ?_, rfl⟩
      · simp [logIf_compiled_files, hc]
      · simp [logIf_events, he]
      · exact logIf_out _ _ _ _ ho
    | syntaxError e =>
      refine ⟨?_, ?_, ?_, rfl⟩
      · simp [logIf_compiled_files, hc]
      · simp [logIf_events, he]
      · exact logIf_out _ _ _ _ ho
    | doesNotExist =>
      refine ⟨?_, ?_, ?_, rfl⟩
      · simp [logIf_compiled_files, hc]
      · simp [logIf_events, he]
      · exact logIf_out _ _ _ _ ho
    | decodeError =>
      refine ⟨?_, ?_, ?_, rfl⟩
      · simp [logIf_compiled_files, hc]
      · simp [logIf_events, he]
      · exact logIf_out _ _ _ _ (logIf_out _ _ _ _ ho)
  | walkFail e =>
    refine ⟨?_, ?_, ?_, rfl⟩
    · simp [logIf_compiled_files, hc]
    · simp [logIf_events, he]
    · exact logIf_out _ _ _ _ ho
  | ok root => exact runNodes_shadow cfg hm (walk_nodes root) st st' hc he ho

theorem runTemplates_shadow (cfg : Config) (hm : cfg.delete_files = false)
    (ts : List Template) :
    ∀ st st' : St, st.compiled_files = st'.compiled_files →
      st.events = st'.events → st.out = st'.out →
      (runTemplates cfg ts st).1.compiled_files =
          (runTemplates cfg ts st').1.compiled_files ∧
      (runTemplates cfg ts st).1.events = (runTemplates cfg ts st').1.events ∧
      (runTemplates cfg ts st).1.out = (runTemplates cfg ts st').1.out ∧
      (runTemplates cfg ts st).2 = (runTemplates cfg ts st').2 := by
  induction ts with
  | nil => intro st st' hc he ho; exact ⟨hc, he, ho, rfl⟩
  | cons tpl rest ih =>
    intro st st' hc he ho
    simp only [runTemplates]
    obtain ⟨hc1, he1, ho1, hs1⟩ := parse_template_shadow cfg hm tpl st st' hc he ho
    rcases h1 : parse_template cfg tpl st with ⟨s1, e1⟩
    rcases h2 : parse_template cfg tpl st' with ⟨s2, e2⟩
    rw [h1, h2] at hc1 he1 ho1 hs1
    simp only at hc1 he1 ho1 hs1
    cases e1 with
    | none =>
      cases e2 with
      | none => exact ih s1 s2 hc1 he1 ho1
      | some e => exact absurd hs1 (by simp)
    | some e =>
      cases e2 with
      | none => exact absurd hs1 (by simp)
      | some e' => exact ⟨hc1, he1, ho1, by rw [hs1]⟩

theorem handle_shadow (cfg : Config) (hm : cfg.delete_files = false)
    (ts : List Template) (fs0 fs1 : FS) :
    (handle cfg ts fs0).1.compiled_files = (handle cfg ts fs1).1.compiled_files ∧
    (handle cfg ts fs0).1.events = (handle cfg ts fs1).1.events ∧
    (handle cfg ts fs0).1.out = (handle cfg ts fs1).1.out ∧
    (handle cfg ts fs0).2 = (handle cfg ts fs1).2 := by
  obtain ⟨hc, he, ho, hs⟩ := runTemplates_shadow cfg hm ts
    { fs := fs0, events := [], compiled_files := [], out := [] }
    { fs := fs1, events := [], compiled_files := [], out := [] } rfl rfl rfl
  rcases h1 : runTemplates cfg ts
      { fs := fs0, events := [], compiled_files := [], out := [] } with ⟨s1, e1⟩
  rcases h2 : runTemplates cfg ts
      { fs := fs1, events := [], compiled_files := [], out := [] } with ⟨s2, e2⟩
  rw [h1, h2] at hc he ho hs
  simp only at hc he ho hs
  cases e1 with
  | none =>
    cases e2 with
    | none =>
      simp only [handle, h1, h2]
      exact ⟨hc, he, by rw [ho, hc], by trivial⟩
    | some e => exact absurd hs (by simp)
  | some e =>
    cases e2 with
    | none => exact absurd hs (by simp)
    | some e' =>
      simp only [handle, h1, h2]
      exact ⟨hc, he, ho, by rw [hs]⟩

/-- C7: running the compile operation twice on an unchanged template set is
idempotent — the second run (started on the filesystem the first run left
behind) performs the identical sequence of compiler invocations and `.css`
writes with identical content, prints the same output lines (hence reports
the same count), and terminates the same way.  This holds because compile
mode never reads the filesystem state it writes. -/
theorem C7_compile_idempotent (cfg : Config) (ts : List Template) (fs0 : FS)
    (hm : cfg.delete_files = false) :
    (handle cfg ts (handle cfg ts fs0).1.fs).1.events = (handle cfg ts fs0).1.events ∧
    (handle cfg ts (handle cfg ts fs0).1.fs).1.out = (handle cfg ts fs0).1.out ∧
    (handle cfg ts (handle cfg ts fs0).1.fs).2 = (handle cfg ts fs0).2 := by
  obtain ⟨hc, he, ho, hs⟩ := handle_shadow cfg hm ts (handle cfg ts fs0).1.fs fs0
  exact ⟨he, ho, hs⟩

theorem C7_witness :
    exCfgCompile.delete_files = false ∧
      ((handle exCfgCompile [exTplOne]
          (handle exCfgCompile [exTplOne] fsEmpty).1.fs).1.events =
        (handle exCfgCompile [exTplOne] fsEmpty).1.events ∧
      (handle exCfgCompile [exTplOne]
          (handle exCfgCompile [exTplOne] fsEmpty).1.fs).1.out =
        (handle exCfgCompile [exTplOne] fsEmpty).1.out ∧
      (handle exCfgCompile [exTplOne]
          (handle exCfgCompile [exTplOne] fsEmpty).1.fs).2 =
        (handle exCfgCompile [exTplOne] fsEmpty).2) := by
  exact ⟨rfl, C7_compile_idempotent exCfgCompile [exTplOne] fsEmpty rfl⟩

end Compilescss
